import Mathlib

/-!
Verification of the ARK root resolver service (`src/ark_root_resolver/main.py`).

The development shallowly embeds the core of the service:
* the NAAN registry data model (`NaanRecord`, targets, snapshots),
* the derived resolver map built by `update_ark_root_resolver_map`
  (a Python dict, modelled as an insertion-ordered association list with
  Python's assignment semantics: assigning to an existing key replaces its
  value in place, a new key is appended),
* the longest-prefix matcher `match_prefix` (Python's `max(..., key=len)`
  keeps the first element attaining the maximum),
* the request handler `handle_ark` (which unpacks the result of
  `match_prefix` without a `None` check, so a no-match raises `TypeError`),
* the cache-refresh routine `ensure_up_to_date_naan_registry_cache`,
  modelled as an explicit state transition.  The wall clock and the network
  are passed in explicitly: `now` is the current time in seconds, and
  `fetchResult` is the outcome of the single HTTP download the routine may
  attempt (`none` models a raised network error).  File reads of an existing
  cache file are modelled as always succeeding.  The routine's
  `try/except Exception` wrapper catches every error raised inside it, so
  the model is a total function: no exception ever escapes.

Python strings are modelled as Lean `String`s; the string predicates used by
the source (`startswith`, `endswith`, `removesuffix`) are defined over the
code-point list `String.data`, matching Python's code-point semantics.
-/

namespace ArkRoot

/-- Python `s.startswith(p)`: `p` is a prefix of `s` (by code points). -/
def startswith (s p : String) : Bool :=
  p.data.isPrefixOf s.data

/-- Python `s.endswith(p)`: `p` is a suffix of `s` (by code points). -/
def endswith (s p : String) : Bool :=
  p.data.isSuffixOf s.data

/-- Python `s.removesuffix(suff)`: drop the trailing `suff` if present. -/
def removesuffix (s suff : String) : String :=
  if endswith s suff then s.dropRight suff.length else s

/-- The `target` object of a NAAN record: a URL template and a redirect
status code (`url` / `http_code` in the registry JSON). -/
structure Target where
  url : String
  http_code : Int
deriving DecidableEq, Repr

/-- One record of the NAAN registry: the registered prefix `what` and its
redirect `target`.  Further registry metadata passes through opaquely and is
not modelled. -/
structure NaanRecord where
  what : String
  target : Target
deriving DecidableEq, Repr

/-- The `data` array of the registry JSON: an ordered list of records. -/
abbrev RegistryData := List NaanRecord

/-- The derived resolver map: a Python dict from `what` strings to targets,
modelled as an insertion-ordered association list. -/
abbrev ResolverMap := List (String × Target)

/-- Python dict assignment `d[k] = v`: replace the value at `k` in place if
the key is present, otherwise append the new pair at the end. -/
def dictInsert {α : Type} (m : List (String × α)) (k : String) (v : α) :
    List (String × α) :=
  match m with
  | [] => [(k, v)]
  | p :: rest => if p.1 == k then (k, v) :: rest else p :: dictInsert rest k v

/-- Python `d.update(ps)`: assign every pair of `ps`, in order, into `d`. -/
def dictUpdate {α : Type} (m ps : List (String × α)) : List (String × α) :=
  ps.foldl (fun acc p => dictInsert acc p.1 p.2) m

/-- A Python dict literal / comprehension built from a pair list: assign the
pairs, in order, into an empty dict (later pairs overwrite earlier ones). -/
def dictOfPairs {α : Type} (ps : List (String × α)) : List (String × α) :=
  dictUpdate [] ps

/-- Python `d.get(k)` / `d[k]`: the value at the first (and, for a genuine
dict, only) occurrence of key `k`. -/
def dictLookup {α : Type} (m : List (String × α)) (k : String) : Option α :=
  match m with
  | [] => none
  | p :: rest => if p.1 == k then some p.2 else dictLookup rest k

/-- The keys of a dict, in insertion order. -/
def dictKeys {α : Type} (m : List (String × α)) : List String :=
  m.map Prod.fst

/-- The value paired with the LAST occurrence of key `k` in a pair list
(the value that survives when the pairs are assigned in order). -/
def lastValueFor {α : Type} : List (String × α) → String → Option α
  | [], _ => none
  | p :: ps, k =>
    match lastValueFor ps k with
    | some v => some v
    | none => if p.1 == k then some p.2 else none

/-- The last record in `l` (in list order) whose `what` equals `w`. -/
def lastRecordFor (w : String) : RegistryData → Option NaanRecord
  | [] => none
  | r :: l =>
    match lastRecordFor w l with
    | some s => some s
    | none => if r.what == w then some r else none

/-- Stable insertion, descending by `what` length: `r` is placed before the
first element whose `what` is no longer than `r.what`, hence after every
strictly longer element and before every equal-length one. -/
def insertDesc (r : NaanRecord) : List NaanRecord → List NaanRecord
  | [] => [r]
  | s :: l =>
    if s.what.length ≤ r.what.length then r :: s :: l else s :: insertDesc r l

/-- Python `sorted(data, key=lambda record: len(record["what"]), reverse=True)`:
the stable sort of the records, descending by `what` length (Python's
`sorted` is stable also with `reverse=True`, and every stable sort by the
same key computes the same list). -/
def sortByWhatLenDesc (l : RegistryData) : RegistryData :=
  l.foldr insertDesc []

/-- `update_ark_root_resolver_map` from the source: sort the snapshot's
records by descending `what` length, build the dict comprehension
`{record["what"]: record["target"] for record in sorted(...)}`, and merge it
into the existing `ark_root_resolver_map` via `dict.update`. -/
def update_ark_root_resolver_map (data : RegistryData)
    (ark_root_resolver_map : ResolverMap) : ResolverMap :=
  dictUpdate ark_root_resolver_map
    (dictOfPairs
      ((sortByWhatLenDesc data).map (fun record => (record.what, record.target))))

/-- One persisted cache file: its modification time (seconds) and the
registry data it stores.  Only the latest file matters to the source
(`get_latest_naan_registry_cache_file` takes the max by mtime), so the
model keeps just that one. -/
structure CacheFile where
  mtime : Nat
  data : RegistryData
deriving DecidableEq, Repr

/-- The mutable module-level state of the service: the latest persisted
cache file, the in-memory `naan_registry_cache` dict (`none` models the
initial empty dict `{}`; after an update its `"data"` entry holds the
record list), and the derived `ark_root_resolver_map`. -/
structure ServerState where
  cacheFile : Option CacheFile
  naan_registry_cache : Option RegistryData
  ark_root_resolver_map : ResolverMap
deriving DecidableEq, Repr

/-- The observable outcome of one `ensure_up_to_date_naan_registry_cache`
call: the new module state, and whether a network download was attempted. -/
structure EnsureResult where
  state : ServerState
  fetchAttempted : Bool
deriving DecidableEq, Repr

/-- `get_latest_naan_registry_cache_file` from the source. -/
def get_latest_naan_registry_cache_file (st : ServerState) : Option CacheFile :=
  st.cacheFile

/-- `is_cache_valid` from the source: the file was written less than
`interval_seconds` ago. -/
def is_cache_valid (now : Nat) (cache_file : CacheFile)
    (interval_seconds : Nat) : Bool :=
  now - cache_file.mtime < interval_seconds

/-- `load_from_cache` from the source (file reads modelled as succeeding). -/
def load_from_cache (cache_file : CacheFile) : RegistryData :=
  cache_file.data

/-- `save_data_to_cache` from the source: write a new timestamped file,
which becomes the latest one. -/
def save_data_to_cache (now : Nat) (data : RegistryData) : CacheFile :=
  { mtime := now, data := data }

/-- `ensure_up_to_date_naan_registry_cache` from the source, as a state
transition.  `fetchResult = none` models the download raising; the
surrounding `try/except Exception` catches every error, so the function is
total.  In the fallback branch the source updates `naan_registry_cache`
from the file cache but does NOT call `update_ark_root_resolver_map`, and
when no cache file exists it simply returns, leaving the state unchanged. -/
def ensure_up_to_date_naan_registry_cache (st : ServerState) (now : Nat)
    (interval_seconds : Nat) (force_download : Bool)
    (fetchResult : Option RegistryData) : EnsureResult :=
  match get_latest_naan_registry_cache_file st with
  | some cache_file =>
    if ¬ force_download ∧ is_cache_valid now cache_file interval_seconds then
      let data := load_from_cache cache_file
      let st' : ServerState :=
        { cacheFile := st.cacheFile
          naan_registry_cache := some data
          ark_root_resolver_map :=
            update_ark_root_resolver_map data st.ark_root_resolver_map }
      { state := st', fetchAttempted := false }
    else
      match fetchResult with
      | some data =>
        let st' : ServerState :=
          { cacheFile := some (save_data_to_cache now data)
            naan_registry_cache := some data
            ark_root_resolver_map :=
              update_ark_root_resolver_map data st.ark_root_resolver_map }
        { state := st', fetchAttempted := true }
      | none =>
        let st' : ServerState :=
          { cacheFile := st.cacheFile
            naan_registry_cache := some (load_from_cache cache_file)
            ark_root_resolver_map := st.ark_root_resolver_map }
        { state := st', fetchAttempted := true }
  | none =>
    match fetchResult with
    | some data =>
      let st' : ServerState :=
        { cacheFile := some (save_data_to_cache now data)
          naan_registry_cache := some data
          ark_root_resolver_map :=
            update_ark_root_resolver_map data st.ark_root_resolver_map }
      { state := st', fetchAttempted := true }
    | none =>
      { state := st, fetchAttempted := true }

/-- Python `max(matches, key=lambda x: len(x[0]))`: fold keeping the current
best, replacing it only when a strictly longer key appears — so the FIRST
element attaining the maximal key length wins.  `none` for an empty list. -/
def maxByLenFirst (matchList : List (String × Target)) :
    Option (String × Target) :=
  match matchList with
  | [] => none
  | x :: xs =>
    some (xs.foldl (fun best y => if y.1.length > best.1.length then y else best) x)

/-- `match_prefix` from the source: keep the pairs whose key is a prefix of
the input string, and return the longest-key match (`None` if no match). -/
def match_prefix (input_string : String) (dictionary : ResolverMap) :
    Option (String × Target) :=
  maxByLenFirst (dictionary.filter (fun kv => startswith input_string kv.1))

/-- What `handle_ark` does with a request: either build a redirect response,
or raise `TypeError` at `what, target = match_prefix(...)` when
`match_prefix` returned `None` (there is no 404 path in the source). -/
inductive ArkOutcome where
  | redirect (url : String) (status_code : Int)
  | typeErrorOnNoneUnpack
deriving DecidableEq, Repr

/-- `handle_ark` from the source: strip at most one leading `/` from the
identifier, match it against the resolver map, and on success redirect to
`target["url"].removesuffix("${content}") + identifier` with status
`target["http_code"]`.  On no match the source unpacks `None` and raises. -/
def handle_ark (identifier0 : String) (resolver_map : ResolverMap) :
    ArkOutcome :=
  let identifier :=
    if startswith identifier0 "/" then identifier0.drop 1 else identifier0
  match match_prefix identifier resolver_map with
  | none => ArkOutcome.typeErrorOnNoneUnpack
  | some (_what, target) =>
    ArkOutcome.redirect (removesuffix target.url "${content}" ++ identifier)
      target.http_code

/-! ### Concrete fixtures used by witnesses and counterexamples -/

/-- A target with the `${content}` placeholder and code 302. -/
def exampleTarget : Target :=
  { url := "https://example.org/${content}", http_code := 302 }

def targetA : Target := { url := "https://a.example/${content}", http_code := 302 }

def targetB : Target := { url := "https://b.example/${content}", http_code := 303 }

def targetC : Target := { url := "https://c.example/${content}", http_code := 301 }

/-- The empty initial module state: no cache file, empty dicts. -/
def emptyState : ServerState :=
  { cacheFile := none, naan_registry_cache := none, ark_root_resolver_map := [] }

def recordA : NaanRecord := { what := "11111", target := targetA }

def recordB : NaanRecord := { what := "22222", target := targetB }

/-- A record that duplicates `recordA`'s `what` with a different target. -/
def recordA2 : NaanRecord := { what := "11111", target := targetC }

/-- The spec's longest-prefix example map {"12025", "120", "1202"}. -/
def exampleMapLongest : ResolverMap :=
  [("12025", targetA), ("120", targetB), ("1202", targetC)]

/-- A map containing the empty string as a key. -/
def emptyKeyMap : ResolverMap := [("", targetA)]

/-- A state holding a stale cache file (written at time 0) and nothing else. -/
def staleCacheState : ServerState :=
  { cacheFile := some { mtime := 0, data := [recordA] },
    naan_registry_cache := none, ark_root_resolver_map := [] }

/-- First refresh from the empty state: fetches snapshot `[recordA]`. -/
def c5FirstRefresh : EnsureResult :=
  ensure_up_to_date_naan_registry_cache emptyState 0 86400 false (some [recordA])

/-- Second refresh, much later (cache stale): fetches snapshot `[recordB]`. -/
def c5SecondRefresh : EnsureResult :=
  ensure_up_to_date_naan_registry_cache c5FirstRefresh.state 999999 86400 false
    (some [recordB])

/-- A state whose cache file was written at time 0 and already published. -/
def c8InitialState : ServerState :=
  { cacheFile := some { mtime := 0, data := [recordA] },
    naan_registry_cache := some [recordA],
    ark_root_resolver_map := [("11111", targetA)] }

/-- First call at t = 9 with maxAge 10: the file (age 9) is still fresh. -/
def c8FirstCall : EnsureResult :=
  ensure_up_to_date_naan_registry_cache c8InitialState 9 10 false (some [recordB])

/-- Second call at t = 11, two seconds after the first: the file (age 11)
has now expired. -/
def c8SecondCall : EnsureResult :=
  ensure_up_to_date_naan_registry_cache c8FirstCall.state 11 10 false (some [recordB])

/-! ### Lemmas about the Python-dict model -/

theorem dictLookup_nil {α : Type} (k : String) :
    dictLookup ([] : List (String × α)) k = none := rfl

theorem dictLookup_dictInsert {α : Type} (m : List (String × α)) (k : String)
    (v : α) (k' : String) :
    dictLookup (dictInsert m k v) k' = if k' = k then some v else dictLookup m k' := by
  induction m with
  | nil =>
    by_cases h : k' = k
    · subst h; simp [dictInsert, dictLookup]
    · have h2 : ¬ k = k' := fun hh => h hh.symm
      simp [dictInsert, dictLookup, beq_iff_eq, h, h2]
  | cons p rest ih =>
    by_cases hp : p.1 = k
    · subst hp
      by_cases h : k' = p.1
      · subst h; simp [dictInsert, dictLookup, beq_iff_eq]
      · have h2 : ¬ p.1 = k' := fun hh => h hh.symm
        simp [dictInsert, dictLookup, beq_iff_eq, h, h2]
    · by_cases h : k' = p.1
      · have h3 : ¬ k' = k := fun hh => hp (h ▸ hh)
        subst h
        simp [dictInsert, dictLookup, beq_iff_eq, hp, h3]
      · have h2 : ¬ p.1 = k' := fun hh => h hh.symm
        simp [dictInsert, dictLookup, beq_iff_eq, hp, h2, ih]

theorem dictUpdate_nil {α : Type} (m : List (String × α)) : dictUpdate m [] = m := rfl

theorem dictUpdate_cons {α : Type} (m : List (String × α)) (p : String × α)
    (ps : List (String × α)) :
    dictUpdate m (p :: ps) = dictUpdate (dictInsert m p.1 p.2) ps := rfl

theorem dictLookup_dictUpdate {α : Type} (ps m : List (String × α)) (k : String) :
    dictLookup (dictUpdate m ps) k =
      match lastValueFor ps k with
      | some v => some v
      | none => dictLookup m k := by
  induction ps generalizing m with
  | nil => rfl
  | cons p ps ih =>
    rw [dictUpdate_cons, ih]
    show _ = (match lastValueFor (p :: ps) k with
      | some v => some v
      | none => dictLookup m k)
    cases hlast : lastValueFor ps k with
    | some v => simp [lastValueFor, hlast]
    | none =>
      rw [dictLookup_dictInsert]
      by_cases h : k = p.1
      · subst h
        simp [lastValueFor, hlast]
      · have h2 : ¬ p.1 = k := fun hh => h hh.symm
        simp [lastValueFor, hlast, h, beq_iff_eq, h2]

theorem lastValueFor_eq_none_of_not_mem {α : Type} (ps : List (String × α))
    (k : String) (h : k ∉ dictKeys ps) : lastValueFor ps k = none := by
  induction ps with
  | nil => rfl
  | cons p ps ih =>
    have hk : p.1 ≠ k := by
      intro hh; exact h (by simp [dictKeys, hh])
    have hmem : k ∉ dictKeys ps := fun hh => h (by simp [dictKeys] at hh ⊢; right; exact hh)
    simp [lastValueFor, ih hmem, beq_iff_eq, hk]

theorem lastValueFor_of_mem_nodup {α : Type} (ps : List (String × α))
    (p : String × α) (hnd : (dictKeys ps).Nodup) (hmem : p ∈ ps) :
    lastValueFor ps p.1 = some p.2 := by
  induction ps with
  | nil => cases hmem
  | cons q ps ih =>
    rw [dictKeys, List.map_cons, List.nodup_cons] at hnd
    rcases List.mem_cons.mp hmem with h | h
    · subst h
      have : p.1 ∉ dictKeys ps := hnd.1
      simp [lastValueFor, lastValueFor_eq_none_of_not_mem ps p.1 this, beq_iff_eq]
    · have := ih hnd.2 h
      simp [lastValueFor, this]

theorem mem_dictKeys_dictInsert {α : Type} (m : List (String × α)) (k : String)
    (v : α) (w : String) :
    w ∈ dictKeys (dictInsert m k v) ↔ w ∈ dictKeys m ∨ w = k := by
  induction m with
  | nil =>
    show w ∈ dictKeys [(k, v)] ↔ w ∈ dictKeys ([] : List (String × α)) ∨ w = k
    simp only [dictKeys, List.map_cons, List.map_nil, List.mem_singleton,
      List.not_mem_nil, false_or]
  | cons p rest ih =>
    by_cases hp : p.1 = k
    · subst hp
      rw [dictInsert, if_pos (beq_self_eq_true p.1)]
      show w ∈ dictKeys ((p.1, v) :: rest) ↔ w ∈ dictKeys (p :: rest) ∨ w = p.1
      simp only [dictKeys, List.map_cons, List.mem_cons]
      tauto
    · rw [dictInsert, if_neg (by simp [beq_iff_eq, hp])]
      show w ∈ dictKeys (p :: dictInsert rest k v) ↔ w ∈ dictKeys (p :: rest) ∨ w = k
      simp only [dictKeys, List.map_cons, List.mem_cons]
      rw [show (dictInsert rest k v).map Prod.fst = dictKeys (dictInsert rest k v) from rfl,
        ih, show rest.map Prod.fst = dictKeys rest from rfl]
      tauto

theorem nodup_dictKeys_dictInsert {α : Type} (m : List (String × α)) (k : String)
    (v : α) (hnd : (dictKeys m).Nodup) : (dictKeys (dictInsert m k v)).Nodup := by
  induction m with
  | nil => simp [dictInsert, dictKeys]
  | cons p rest ih =>
    rw [dictKeys, List.map_cons, List.nodup_cons] at hnd
    by_cases hp : p.1 = k
    · simp only [dictInsert, beq_iff_eq, hp, if_true]
      rw [dictKeys, List.map_cons, List.nodup_cons]
      exact ⟨hp ▸ hnd.1, hnd.2⟩
    · simp only [dictInsert, beq_iff_eq, hp, if_false]
      rw [dictKeys, List.map_cons, List.nodup_cons]
      refine ⟨fun hmem => ?_, ih hnd.2⟩
      rcases (mem_dictKeys_dictInsert rest k v p.1).mp hmem with h | h
      · exact hnd.1 h
      · exact hp h

theorem nodup_dictKeys_dictUpdate {α : Type} (ps m : List (String × α))
    (hnd : (dictKeys m).Nodup) : (dictKeys (dictUpdate m ps)).Nodup := by
  induction ps generalizing m with
  | nil => exact hnd
  | cons p ps ih =>
    rw [dictUpdate_cons]
    exact ih _ (nodup_dictKeys_dictInsert m p.1 p.2 hnd)

theorem nodup_dictKeys_dictOfPairs {α : Type} (ps : List (String × α)) :
    (dictKeys (dictOfPairs ps)).Nodup :=
  nodup_dictKeys_dictUpdate ps [] (by simp [dictKeys])

theorem mem_dictKeys_dictUpdate {α : Type} (ps m : List (String × α)) (w : String) :
    w ∈ dictKeys (dictUpdate m ps) ↔ w ∈ dictKeys m ∨ w ∈ dictKeys ps := by
  induction ps generalizing m with
  | nil =>
    rw [dictUpdate_nil]
    show _ ↔ w ∈ dictKeys m ∨ w ∈ dictKeys ([] : List (String × α))
    simp [dictKeys]
  | cons p ps ih =>
    rw [dictUpdate_cons, ih, mem_dictKeys_dictInsert]
    show _ ↔ w ∈ dictKeys m ∨ w ∈ dictKeys (p :: ps)
    simp only [dictKeys, List.map_cons, List.mem_cons]
    rw [show ps.map Prod.fst = dictKeys ps from rfl]
    tauto

theorem mem_dictKeys_dictOfPairs {α : Type} (ps : List (String × α)) (w : String) :
    w ∈ dictKeys (dictOfPairs ps) ↔ w ∈ dictKeys ps := by
  rw [dictOfPairs, mem_dictKeys_dictUpdate]
  simp [dictKeys]

theorem dictInsert_eq_self {α : Type} (m : List (String × α)) (k : String) (v : α)
    (h : dictLookup m k = some v) : dictInsert m k v = m := by
  induction m with
  | nil => simp [dictLookup] at h
  | cons p rest ih =>
    by_cases hp : p.1 = k
    · rw [dictLookup, if_pos (beq_iff_eq.mpr hp)] at h
      rw [dictInsert, if_pos (beq_iff_eq.mpr hp)]
      rw [show p = (p.1, p.2) from rfl, hp, Option.some_inj.mp h]
    · rw [dictLookup, if_neg (by simp [beq_iff_eq, hp])] at h
      rw [dictInsert, if_neg (by simp [beq_iff_eq, hp])]
      rw [ih h]

theorem dictUpdate_eq_self {α : Type} (ps m : List (String × α))
    (h : ∀ p ∈ ps, dictLookup m p.1 = some p.2) : dictUpdate m ps = m := by
  induction ps generalizing m with
  | nil => rfl
  | cons p ps ih =>
    rw [dictUpdate_cons, dictInsert_eq_self m p.1 p.2 (h p (List.mem_cons_self p ps))]
    exact ih m (fun q hq => h q (List.mem_cons_of_mem p hq))

theorem lastValueFor_eq_dictLookup_of_nodup {α : Type} (m : List (String × α))
    (k : String) (hnd : (dictKeys m).Nodup) : lastValueFor m k = dictLookup m k := by
  induction m with
  | nil => rfl
  | cons p rest ih =>
    rw [dictKeys, List.map_cons, List.nodup_cons] at hnd
    by_cases hp : p.1 = k
    · have : k ∉ dictKeys rest := hp ▸ hnd.1
      simp [lastValueFor, dictLookup, lastValueFor_eq_none_of_not_mem rest k this,
        beq_iff_eq, hp]
    · rw [lastValueFor, dictLookup, ← ih hnd.2]
      cases lastValueFor rest k <;> simp [beq_iff_eq, hp]

theorem dictLookup_dictOfPairs {α : Type} (ps : List (String × α)) (k : String) :
    dictLookup (dictOfPairs ps) k = lastValueFor ps k := by
  rw [dictOfPairs, dictLookup_dictUpdate]
  cases lastValueFor ps k <;> rfl

/-- Looking a key up after a `dict.update` with a dict comprehension: the
last pair for the key among the comprehension's input pairs wins, and keys
absent from the input pairs keep their old value. -/
theorem dictLookup_dictUpdate_dictOfPairs {α : Type} (m ps : List (String × α))
    (k : String) :
    dictLookup (dictUpdate m (dictOfPairs ps)) k =
      match lastValueFor ps k with
      | some v => some v
      | none => dictLookup m k := by
  rw [dictLookup_dictUpdate,
    lastValueFor_eq_dictLookup_of_nodup _ k (nodup_dictKeys_dictOfPairs ps),
    dictLookup_dictOfPairs]

/-- Two pairs of a dict (no duplicate keys) with the same key are equal. -/
theorem eq_of_mem_nodupKeys {α : Type} (l : List (String × α)) (p q : String × α)
    (hnd : (dictKeys l).Nodup) (hp : p ∈ l) (hq : q ∈ l) (hk : p.1 = q.1) : p = q := by
  induction l with
  | nil => cases hp
  | cons r l ih =>
    rw [dictKeys, List.map_cons, List.nodup_cons] at hnd
    rcases List.mem_cons.mp hp with h1 | h1 <;> rcases List.mem_cons.mp hq with h2 | h2
    · rw [h1, h2]
    · exfalso
      subst h1
      exact hnd.1 (hk ▸ List.mem_map_of_mem Prod.fst h2)
    · exfalso
      subst h2
      exact hnd.1 (hk ▸ List.mem_map_of_mem Prod.fst h1)
    · exact ih hnd.2 h1 h2

/-! ### Lemmas about the stable descending sort -/

theorem lastRecordFor_cons (w : String) (r : NaanRecord) (l : RegistryData) :
    lastRecordFor w (r :: l) =
      match lastRecordFor w l with
      | some s => some s
      | none => if r.what == w then some r else none := rfl

theorem sortByWhatLenDesc_cons (r : NaanRecord) (l : RegistryData) :
    sortByWhatLenDesc (r :: l) = insertDesc r (sortByWhatLenDesc l) := rfl

theorem filter_insertDesc_of_neg (w : String) (r : NaanRecord) (l : RegistryData)
    (hr : (r.what == w) = false) :
    (insertDesc r l).filter (fun s => s.what == w)
      = l.filter (fun s => s.what == w) := by
  induction l with
  | nil => simp [insertDesc, hr]
  | cons s l ih =>
    rw [insertDesc]
    by_cases hc : s.what.length ≤ r.what.length
    · rw [if_pos hc]
      simp [List.filter_cons, hr]
    · rw [if_neg hc, List.filter_cons, List.filter_cons]
      cases hs : (s.what == w) <;> simp [hs, ih]

theorem filter_insertDesc_of_pos (w : String) (r : NaanRecord) (l : RegistryData)
    (hr : (r.what == w) = true)
    (hlen : ∀ s : NaanRecord, (s.what == w) = true → s.what.length = r.what.length) :
    (insertDesc r l).filter (fun s => s.what == w)
      = r :: l.filter (fun s => s.what == w) := by
  induction l with
  | nil => simp [insertDesc, hr]
  | cons s l ih =>
    rw [insertDesc]
    by_cases hc : s.what.length ≤ r.what.length
    · rw [if_pos hc]
      simp [List.filter_cons, hr]
    · rw [if_neg hc]
      have hs : (s.what == w) = false := by
        cases hsw : (s.what == w) with
        | true => exact absurd (hlen s hsw) (by omega)
        | false => rfl
      simp [List.filter_cons, hs, ih]

/-- Stability of the sort, restricted to one key: the subsequence of records
whose `what` is exactly `w` (all of the same length) appears in the sorted
list in its original order. -/
theorem filter_sortByWhatLenDesc (w : String) (l : RegistryData) :
    (sortByWhatLenDesc l).filter (fun s => s.what == w)
      = l.filter (fun s => s.what == w) := by
  induction l with
  | nil => rfl
  | cons r l ih =>
    rw [sortByWhatLenDesc_cons]
    cases hr : (r.what == w) with
    | false =>
      rw [filter_insertDesc_of_neg w r _ hr, ih, List.filter_cons, if_neg (by simp [hr])]
    | true =>
      have hlen : ∀ s : NaanRecord, (s.what == w) = true → s.what.length = r.what.length := by
        intro s hs
        rw [beq_iff_eq.mp hs, beq_iff_eq.mp hr]
      rw [filter_insertDesc_of_pos w r _ hr hlen, ih, List.filter_cons,
        if_pos (by simp [hr])]

theorem lastRecordFor_filter (w : String) (l : RegistryData) :
    lastRecordFor w (l.filter (fun s => s.what == w)) = lastRecordFor w l := by
  induction l with
  | nil => rfl
  | cons r l ih =>
    rw [List.filter_cons]
    cases hr : (r.what == w) with
    | true =>
      rw [if_pos (by simp [hr]), lastRecordFor_cons, lastRecordFor_cons, ih]
    | false =>
      rw [if_neg (by simp [hr]), ih, lastRecordFor_cons]
      cases lastRecordFor w l with
      | some s => rfl
      | none => simp [hr]

/-- Sorting does not change which record is the last one carrying `w`. -/
theorem lastRecordFor_sortByWhatLenDesc (w : String) (l : RegistryData) :
    lastRecordFor w (sortByWhatLenDesc l) = lastRecordFor w l := by
  rw [← lastRecordFor_filter w (sortByWhatLenDesc l), filter_sortByWhatLenDesc,
    lastRecordFor_filter]

/-- `lastRecordFor` is really "the last such record": it is the first match
when scanning the reversed list. -/
theorem lastRecordFor_eq_find_reverse (w : String) (l : RegistryData) :
    lastRecordFor w l = l.reverse.find? (fun s => s.what == w) := by
  induction l with
  | nil => rfl
  | cons r l ih =>
    rw [List.reverse_cons, List.find?_append, lastRecordFor_cons, ih]
    cases l.reverse.find? (fun s => s.what == w) with
    | some s => rfl
    | none =>
      show (if r.what == w then some r else none) = Option.or none (List.find? _ [r])
      cases hr : (r.what == w) <;> simp [List.find?, hr]

theorem lastValueFor_cons {α : Type} (p : String × α) (ps : List (String × α))
    (k : String) :
    lastValueFor (p :: ps) k =
      match lastValueFor ps k with
      | some v => some v
      | none => if p.1 == k then some p.2 else none := rfl

theorem lastValueFor_recordPairs (w : String) (l : RegistryData) :
    lastValueFor (l.map (fun record => (record.what, record.target))) w
      = (lastRecordFor w l).map NaanRecord.target := by
  induction l with
  | nil => rfl
  | cons r l ih =>
    rw [List.map_cons, lastValueFor_cons, ih, lastRecordFor_cons]
    cases lastRecordFor w l with
    | some s => rfl
    | none => cases hr : (r.what == w) <;> simp [hr]

/-- The central lookup law of `update_ark_root_resolver_map`: the value at
`w` after an update is the target of the last record (in snapshot order)
whose `what` is `w`, and the old value when the snapshot carries no such
record.  Sorting by descending length does not disturb this because the
sort is stable and all records with `what = w` share one length. -/
theorem dictLookup_update_ark_root_resolver_map (data : RegistryData)
    (m : ResolverMap) (w : String) :
    dictLookup (update_ark_root_resolver_map data m) w =
      match lastRecordFor w data with
      | some r => some r.target
      | none => dictLookup m w := by
  rw [update_ark_root_resolver_map, dictLookup_dictUpdate_dictOfPairs,
    lastValueFor_recordPairs, lastRecordFor_sortByWhatLenDesc]
  cases lastRecordFor w data with
  | some r => rfl
  | none => rfl

/-! ### Lemmas about `maxByLenFirst` (Python `max(..., key=len)`) -/

theorem maxFold_mem (xs : List (String × Target)) (x : String × Target) :
    xs.foldl (fun best y => if y.1.length > best.1.length then y else best) x
      ∈ x :: xs := by
  induction xs generalizing x with
  | nil => simp
  | cons y xs ih =>
    rw [List.foldl_cons]
    have h := ih (if y.1.length > x.1.length then y else x)
    rcases List.mem_cons.mp h with h | h
    · rw [h]
      by_cases hc : y.1.length > x.1.length <;> simp [hc]
    · simp [List.mem_cons, h]

theorem maxFold_ge_init (xs : List (String × Target)) (x : String × Target) :
    x.1.length ≤
      (xs.foldl (fun best y => if y.1.length > best.1.length then y else best) x).1.length := by
  induction xs generalizing x with
  | nil => exact le_refl _
  | cons y xs ih =>
    rw [List.foldl_cons]
    refine le_trans ?_ (ih (if y.1.length > x.1.length then y else x))
    by_cases hc : y.1.length > x.1.length
    · simp only [hc, if_true]; omega
    · simp [hc]

theorem maxFold_ge_mem (xs : List (String × Target)) (x : String × Target) :
    ∀ p ∈ x :: xs,
      p.1.length ≤
        (xs.foldl (fun best y => if y.1.length > best.1.length then y else best) x).1.length := by
  induction xs generalizing x with
  | nil =>
    intro p hp
    rcases List.mem_cons.mp hp with h | h
    · rw [h]; exact le_refl _
    · cases h
  | cons y xs ih =>
    intro p hp
    rw [List.foldl_cons]
    have hstep_x : x.1.length ≤ (if y.1.length > x.1.length then y else x).1.length := by
      by_cases hc : y.1.length > x.1.length
      · simp only [hc, if_true]; omega
      · simp [hc]
    have hstep_y : y.1.length ≤ (if y.1.length > x.1.length then y else x).1.length := by
      by_cases hc : y.1.length > x.1.length
      · simp [hc]
      · simp only [hc, if_false]; omega
    rcases List.mem_cons.mp hp with h | h
    · rw [h]
      exact le_trans hstep_x (maxFold_ge_init xs _)
    · rcases List.mem_cons.mp h with h2 | h2
      · rw [h2]
        exact le_trans hstep_y (maxFold_ge_init xs _)
      · exact ih _ p (List.mem_cons_of_mem _ h2)

/-- When a list has a UNIQUE pair attaining the maximal key length, the
Python `max` fold necessarily returns that pair, whatever the list order. -/
theorem maxFold_eq_of_unique_max (xs : List (String × Target))
    (x q : String × Target) (hmem : q = x ∨ q ∈ xs)
    (hle : ∀ p ∈ x :: xs, p.1.length ≤ q.1.length)
    (huniq : ∀ p ∈ x :: xs, p.1.length = q.1.length → p = q) :
    xs.foldl (fun best y => if y.1.length > best.1.length then y else best) x = q := by
  induction xs generalizing x with
  | nil =>
    rcases hmem with h | h
    · exact h.symm
    · cases h
  | cons y xs ih =>
    rw [List.foldl_cons]
    have hstep_mem : (if y.1.length > x.1.length then y else x) ∈ x :: y :: xs := by
      by_cases hc : y.1.length > x.1.length <;> simp [hc]
    apply ih
    · rcases hmem with h | h
      · left
        by_cases hc : y.1.length > x.1.length
        · exfalso
          have hy := hle y (List.mem_cons_of_mem x (List.mem_cons_self y xs))
          rw [← h] at hc
          omega
        · rw [if_neg hc]; exact h
      · rcases List.mem_cons.mp h with hq | hq
        · left
          by_cases hc : y.1.length > x.1.length
          · rw [if_pos hc]; exact hq
          · rw [if_neg hc]
            have hxle := hle x (List.mem_cons_self x (y :: xs))
            have hyx : y.1.length ≤ x.1.length := by omega
            have hqy : q.1.length = y.1.length := by rw [hq]
            have hxeq : x.1.length = q.1.length := by omega
            exact (huniq x (List.mem_cons_self x (y :: xs)) hxeq).symm
        · right; exact hq
    · intro p hp
      rcases List.mem_cons.mp hp with h | h
      · rw [h]; exact hle _ hstep_mem
      · exact hle p (List.mem_cons_of_mem x (List.mem_cons_of_mem y h))
    · intro p hp
      rcases List.mem_cons.mp hp with h | h
      · rw [h]; exact huniq _ hstep_mem
      · exact huniq p (List.mem_cons_of_mem x (List.mem_cons_of_mem y h))

theorem maxByLenFirst_mem (l : List (String × Target)) (q : String × Target)
    (h : maxByLenFirst l = some q) : q ∈ l := by
  cases l with
  | nil => exact absurd h (by simp [maxByLenFirst])
  | cons x xs =>
    have heq : xs.foldl (fun best y => if y.1.length > best.1.length then y else best) x = q :=
      Option.some_inj.mp (by simpa [maxByLenFirst] using h)
    have hm := maxFold_mem xs x
    rw [heq] at hm
    exact hm

theorem maxByLenFirst_maximal (l : List (String × Target)) (q : String × Target)
    (h : maxByLenFirst l = some q) : ∀ p ∈ l, p.1.length ≤ q.1.length := by
  cases l with
  | nil => exact absurd h (by simp [maxByLenFirst])
  | cons x xs =>
    intro p hp
    have heq : xs.foldl (fun best y => if y.1.length > best.1.length then y else best) x = q :=
      Option.some_inj.mp (by simpa [maxByLenFirst] using h)
    have hm := maxFold_ge_mem xs x p hp
    rw [heq] at hm
    exact hm

/-! ### String facts used by the matcher -/

/-- Two prefixes of the same string with equal length are equal. -/
theorem startswith_eq_of_length_eq (I k₁ k₂ : String)
    (h₁ : startswith I k₁ = true) (h₂ : startswith I k₂ = true)
    (hlen : k₁.length = k₂.length) : k₁ = k₂ := by
  rw [startswith, List.isPrefixOf_iff_prefix] at h₁ h₂
  have hp := List.prefix_of_prefix_length_le h₁ h₂ (le_of_eq hlen)
  exact String.ext (hp.eq_of_length hlen)

/-- The empty string is a prefix of every string. -/
theorem startswith_empty_right (I : String) : startswith I "" = true := by
  rw [startswith, show ("" : String).data = [] from rfl]
  cases I.data <;> rfl

/-! ### Membership through the sort, and absent keys -/

theorem mem_insertDesc (x r : NaanRecord) (l : RegistryData) :
    x ∈ insertDesc r l ↔ x = r ∨ x ∈ l := by
  induction l with
  | nil => simp [insertDesc]
  | cons s l ih =>
    rw [insertDesc]
    by_cases hc : s.what.length ≤ r.what.length
    · rw [if_pos hc]
      simp only [List.mem_cons]
    · rw [if_neg hc]
      simp only [List.mem_cons, ih]
      tauto

theorem mem_sortByWhatLenDesc (x : NaanRecord) (l : RegistryData) :
    x ∈ sortByWhatLenDesc l ↔ x ∈ l := by
  induction l with
  | nil => exact Iff.rfl
  | cons r l ih =>
    rw [sortByWhatLenDesc_cons, mem_insertDesc, ih, List.mem_cons]

theorem dictKeys_recordPairs (l : RegistryData) :
    dictKeys (l.map (fun record => (record.what, record.target)))
      = l.map NaanRecord.what := by
  rw [dictKeys, List.map_map]
  rfl

theorem mem_whats_sortByWhatLenDesc (w : String) (l : RegistryData) :
    w ∈ (sortByWhatLenDesc l).map NaanRecord.what ↔ w ∈ l.map NaanRecord.what := by
  simp only [List.mem_map]
  constructor
  · rintro ⟨r, hr, hw⟩
    exact ⟨r, (mem_sortByWhatLenDesc r l).mp hr, hw⟩
  · rintro ⟨r, hr, hw⟩
    exact ⟨r, (mem_sortByWhatLenDesc r l).mpr hr, hw⟩

theorem lastRecordFor_eq_none_of_not_mem (w : String) (l : RegistryData)
    (h : w ∉ l.map NaanRecord.what) : lastRecordFor w l = none := by
  induction l with
  | nil => rfl
  | cons r l ih =>
    have hrw : ¬ (r.what = w) := by
      intro hh
      apply h
      simp only [List.mem_map]
      exact ⟨r, List.mem_cons_self r l, hh⟩
    have htail : w ∉ l.map NaanRecord.what := by
      intro hh
      apply h
      simp only [List.mem_map] at hh ⊢
      obtain ⟨r', hr', hw'⟩ := hh
      exact ⟨r', List.mem_cons_of_mem r hr', hw'⟩
    rw [lastRecordFor_cons, ih htail]
    simp [beq_iff_eq, hrw]

/-! ### Reduction lemmas for the refresh routine -/

/-- With `force_download = true` the routine always takes the download
branch (on a successful fetch): it saves a new cache file and publishes. -/
theorem ensure_force_download (st : ServerState) (now interval : Nat)
    (data : RegistryData) :
    ensure_up_to_date_naan_registry_cache st now interval true (some data) =
      { state :=
          { cacheFile := some (save_data_to_cache now data)
            naan_registry_cache := some data
            ark_root_resolver_map :=
              update_ark_root_resolver_map data st.ark_root_resolver_map }
        fetchAttempted := true } := by
  cases hcf : st.cacheFile with
  | none =>
    simp [ensure_up_to_date_naan_registry_cache,
      get_latest_naan_registry_cache_file, hcf]
  | some cf =>
    simp [ensure_up_to_date_naan_registry_cache,
      get_latest_naan_registry_cache_file, hcf]

/-- If a call with `force_download = false` attempted the download (and the
fetch succeeded), its resulting state is the download-branch state. -/
theorem ensure_download_state (st : ServerState) (now interval : Nat)
    (data : RegistryData)
    (h : (ensure_up_to_date_naan_registry_cache st now interval false
        (some data)).fetchAttempted = true) :
    (ensure_up_to_date_naan_registry_cache st now interval false
        (some data)).state =
      { cacheFile := some (save_data_to_cache now data)
        naan_registry_cache := some data
        ark_root_resolver_map :=
          update_ark_root_resolver_map data st.ark_root_resolver_map } := by
  cases hcf : st.cacheFile with
  | none =>
    simp [ensure_up_to_date_naan_registry_cache,
      get_latest_naan_registry_cache_file, hcf]
  | some cf =>
    by_cases hv : is_cache_valid now cf interval = true
    · exfalso
      simp [ensure_up_to_date_naan_registry_cache,
        get_latest_naan_registry_cache_file, hcf, hv] at h
    · simp [ensure_up_to_date_naan_registry_cache,
        get_latest_naan_registry_cache_file, hcf, hv]

/-- Rebuilding the resolver map twice from the same snapshot is the same as
rebuilding it once (every pair the comprehension assigns is already present
with exactly that value, so each `dict` assignment replaces in place). -/
theorem update_ark_root_resolver_map_idem (data : RegistryData) (m : ResolverMap) :
    update_ark_root_resolver_map data (update_ark_root_resolver_map data m)
      = update_ark_root_resolver_map data m := by
  have key : ∀ p ∈ dictOfPairs
      ((sortByWhatLenDesc data).map (fun record => (record.what, record.target))),
      dictLookup (update_ark_root_resolver_map data m) p.1 = some p.2 := by
    intro p hp
    rw [update_ark_root_resolver_map, dictLookup_dictUpdate,
      lastValueFor_of_mem_nodup _ p (nodup_dictKeys_dictOfPairs _) hp]
  exact dictUpdate_eq_self _ _ key

/-! ### A characterisation of the matcher's result -/

/-- If `(k, v)` is a matching pair of maximal key length in a map without
duplicate keys, then `match_prefix` returns exactly `(k, v)` — whatever the
order of the map's entries.  (Maximal-length matching keys are unique: two
equal-length prefixes of the same string coincide.) -/
theorem match_prefix_eq_of_maximal (M : ResolverMap) (I k : String) (v : Target)
    (hnodup : (dictKeys M).Nodup) (hmem : (k, v) ∈ M)
    (hpre : startswith I k = true)
    (hmax : ∀ k' v', (k', v') ∈ M → startswith I k' = true →
      k'.length ≤ k.length) :
    match_prefix I M = some (k, v) := by
  have hqf : (k, v) ∈ M.filter (fun kv => startswith I kv.1) :=
    List.mem_filter.mpr ⟨hmem, hpre⟩
  show maxByLenFirst (M.filter (fun kv => startswith I kv.1)) = some (k, v)
  cases hm : M.filter (fun kv => startswith I kv.1) with
  | nil => rw [hm] at hqf; cases hqf
  | cons x xs =>
    rw [hm] at hqf
    have hle : ∀ p ∈ x :: xs, p.1.length ≤ k.length := by
      intro p hp
      rw [← hm] at hp
      have hpM := List.mem_filter.mp hp
      exact hmax p.1 p.2 hpM.1 hpM.2
    have huniq : ∀ p ∈ x :: xs, p.1.length = k.length → p = (k, v) := by
      intro p hp hplen
      rw [← hm] at hp
      have hpM := List.mem_filter.mp hp
      have hpk : p.1 = k := startswith_eq_of_length_eq I p.1 k hpM.2 hpre hplen
      exact eq_of_mem_nodupKeys M p (k, v) hnodup hpM.1 hmem hpk
    show some _ = some (k, v)
    rw [maxFold_eq_of_unique_max xs x (k, v) (List.mem_cons.mp hqf) hle huniq]

/-! ### The claims -/

/-- C1: the claim says an identifier with no registered prefix yields a
NotFoundError surfaced as a 404, never a crash.  The code disagrees: with
resolver map {"99" ↦ target} and identifier "00000/x" (no key is a prefix),
`match_prefix` returns `None` and `handle_ark` unpacks it with
`what, target = match_prefix(...)`, raising `TypeError` — an uncaught
exception, not a 404; the source has no NotFoundError path at all. -/
theorem c1_noMatch_raises_typeError_not_404 :
    match_prefix "00000/x" [("99", exampleTarget)] = none ∧
      handle_ark "00000/x" [("99", exampleTarget)]
        = ArkOutcome.typeErrorOnNoneUnpack := by
  decide

/-- C2: `match_prefix` is deterministic and independent of the map's
iteration/insertion order: permuting a duplicate-free map never changes the
result, and any matching pair of maximal key length IS the result.  Since
two equal-length prefixes of one identifier are equal, at most one key of
maximal length matches, so the "lexicographically smallest among several
maximal keys" tie-break holds vacuously: the selected key equals every
maximal matching key. -/
theorem c2_match_determinism_and_tiebreak (M M' : ResolverMap) (I : String)
    (hperm : M.Perm M') (hnodup : (dictKeys M).Nodup) :
    match_prefix I M = match_prefix I M' ∧
      (∀ k v, (k, v) ∈ M → startswith I k = true →
        (∀ k' v', (k', v') ∈ M → startswith I k' = true →
          k'.length ≤ k.length) →
        match_prefix I M = some (k, v)) := by
  constructor
  · have hnodup' : (dictKeys M').Nodup := (hperm.map Prod.fst).nodup hnodup
    have hfperm : (M.filter (fun kv => startswith I kv.1)).Perm
        (M'.filter (fun kv => startswith I kv.1)) := hperm.filter _
    cases hres : match_prefix I M with
    | none =>
      have hres' : maxByLenFirst (M.filter (fun kv => startswith I kv.1)) = none := hres
      cases hm : M.filter (fun kv => startswith I kv.1) with
      | cons x xs => rw [hm] at hres'; exact absurd hres' (by simp [maxByLenFirst])
      | nil =>
        rw [hm] at hfperm
        have hnil : M'.filter (fun kv => startswith I kv.1) = [] :=
          hfperm.symm.eq_nil
        show _ = maxByLenFirst (M'.filter (fun kv => startswith I kv.1))
        rw [hnil]
        rfl
    | some q =>
      have hres' : maxByLenFirst (M.filter (fun kv => startswith I kv.1)) = some q := hres
      have hqf := maxByLenFirst_mem _ _ hres'
      have hqM := List.mem_filter.mp hqf
      have hmax := maxByLenFirst_maximal _ _ hres'
      refine ( match_prefix_eq_of_maximal M' I q.1 q.2 hnodup'
        (hperm.subset hqM.1) hqM.2 ?_).symm
      intro k' v' hk'M hk'pre
      exact hmax (k', v')
        (List.mem_filter.mpr ⟨hperm.symm.subset hk'M, hk'pre⟩)
  · intro k v hmem hpre hmax
    exact match_prefix_eq_of_maximal M I k v hnodup hmem hpre
      (fun k' v' h1 h2 => hmax k' v' h1 h2)

/-- C2 witness: the two insertion orders of {"12" ↦ A, "99" ↦ B} give the
same match for "9912". -/
theorem c2_match_determinism_witness :
    match_prefix "9912" [("12", targetA), ("99", targetB)]
      = match_prefix "9912" [("99", targetB), ("12", targetA)] :=
  (c2_match_determinism_and_tiebreak [("12", targetA), ("99", targetB)]
    [("99", targetB), ("12", targetA)] "9912" (by decide) (by decide)).1

/-- C3: the claim says that with no cache file and a failing fetch the
routine fails with FatalStartupError and aborts startup.  The code
disagrees: `ensure_up_to_date_naan_registry_cache` catches every exception;
starting from the empty state with a failing download it returns normally
(the model is a total function), leaving the registry cache and resolver
map empty — no error reaches `lifespan`, despite its comment
"Exit the application if this fails." -/
theorem c3_startup_failure_returns_normally_with_empty_state :
    (ensure_up_to_date_naan_registry_cache emptyState 0 86400 false none).state
        = emptyState ∧
      (ensure_up_to_date_naan_registry_cache emptyState 0 86400 false
          none).fetchAttempted = true := by
  decide

/-- C4: the claim says that with a stale snapshot and a failing fetch the
routine publishes the stale snapshot's derived resolver map.  The code
disagrees: the fallback branch updates `naan_registry_cache` from the stale
file but never calls `update_ark_root_resolver_map`, so the published map
keeps its previous (here: empty) value, different from the map the stale
snapshot derives. -/
theorem c4_stale_fallback_skips_map_rebuild :
    (ensure_up_to_date_naan_registry_cache staleCacheState 200000 86400 false
          none).state.naan_registry_cache = some [recordA] ∧
      (ensure_up_to_date_naan_registry_cache staleCacheState 200000 86400 false
          none).state.ark_root_resolver_map = [] ∧
      update_ark_root_resolver_map [recordA] [] = [("11111", targetA)] := by
  decide

/-- C5 counterexample: publication MERGES rather than replaces.  After a
successful refresh with snapshot `[recordA]` followed by a successful
refresh with candidate snapshot `[recordB]`, the key "11111" of the first
snapshot still lives in the published resolver map although it is not a
`what` of the candidate snapshot — so the map's key set is not the
candidate snapshot's `what` set and an earlier entry survived. -/
theorem c5_replacement_counterexample :
    c5SecondRefresh.state.naan_registry_cache = some [recordB] ∧
      "11111" ∈ dictKeys c5SecondRefresh.state.ark_root_resolver_map ∧
      "11111" ∉ [recordB].map NaanRecord.what := by
  decide

/-- C5 amended: after a successful refresh with candidate snapshot `data`,
the registry cache holds exactly `data`, but the resolver map is the OLD
map merged with the snapshot's entries: its key set is the union of the old
key set and the snapshot's `what` set, and keys absent from the snapshot
keep their old value (nothing is deleted). -/
theorem c5_refresh_merges_into_map (st : ServerState) (now interval : Nat)
    (data : RegistryData) :
    (ensure_up_to_date_naan_registry_cache st now interval true
        (some data)).state.naan_registry_cache = some data ∧
      (∀ w : String,
        w ∈ dictKeys (ensure_up_to_date_naan_registry_cache st now interval true
            (some data)).state.ark_root_resolver_map ↔
          w ∈ dictKeys st.ark_root_resolver_map ∨ w ∈ data.map NaanRecord.what) ∧
      (∀ w : String, w ∉ data.map NaanRecord.what →
        dictLookup (ensure_up_to_date_naan_registry_cache st now interval true
            (some data)).state.ark_root_resolver_map w
          = dictLookup st.ark_root_resolver_map w) := by
  rw [ensure_force_download]
  refine ⟨rfl, fun w => ?_, fun w hw => ?_⟩
  · show w ∈ dictKeys (update_ark_root_resolver_map data st.ark_root_resolver_map) ↔ _
    rw [update_ark_root_resolver_map, mem_dictKeys_dictUpdate,
      mem_dictKeys_dictOfPairs, dictKeys_recordPairs,
      mem_whats_sortByWhatLenDesc]
  · show dictLookup (update_ark_root_resolver_map data st.ark_root_resolver_map) w = _
    rw [dictLookup_update_ark_root_resolver_map,
      lastRecordFor_eq_none_of_not_mem w data hw]

/-- C5 amended, witness: a key absent from the snapshot keeps its old
(here: absent) binding. -/
theorem c5_refresh_merges_witness :
    dictLookup (ensure_up_to_date_naan_registry_cache emptyState 5 86400 true
        (some [recordB])).state.ark_root_resolver_map "zzz"
      = dictLookup emptyState.ark_root_resolver_map "zzz" :=
  (c5_refresh_merges_into_map emptyState 5 86400 [recordB]).2.2 "zzz" (by decide)

/-- C6: when `match_prefix` succeeds with key `k`, the identifier starts
with `k` and no strictly longer key of the map is also a prefix of the
identifier. -/
theorem c6_match_result_is_longest_matching (M : ResolverMap) (I k : String)
    (v : Target) (h : match_prefix I M = some (k, v)) :
    startswith I k = true ∧
      ∀ p ∈ M, p.1.length > k.length → startswith I p.1 = false := by
  have h' : maxByLenFirst (M.filter (fun kv => startswith I kv.1)) = some (k, v) := h
  have hfmem := maxByLenFirst_mem _ _ h'
  have hkM := List.mem_filter.mp hfmem
  refine ⟨hkM.2, fun p hp hlen => ?_⟩
  cases hs : startswith I p.1 with
  | false => rfl
  | true =>
    exfalso
    have hpf : p ∈ M.filter (fun kv => startswith I kv.1) :=
      List.mem_filter.mpr ⟨hp, hs⟩
    have hple : p.1.length ≤ k.length := maxByLenFirst_maximal _ _ h' p hpf
    omega

/-- C6 witness: with keys {"12025", "120", "1202"} and identifier
"120259/x1" the matched key "12025" is a prefix of the identifier. -/
theorem c6_match_result_witness : startswith "120259/x1" "12025" = true :=
  (c6_match_result_is_longest_matching exampleMapLongest "120259/x1" "12025"
    targetA (by decide)).1

/-- C7: for a matched identifier, the redirect URL is the target URL with a
trailing `${content}` placeholder removed, followed by the FULL identifier
(after stripping at most one leading `/`, not the remainder after the
matched prefix), and the status code is the target's `http_code`. -/
theorem c7_redirect_construction (identifier0 : String) (m : ResolverMap)
    (w : String) (t : Target)
    (h : match_prefix
        (if startswith identifier0 "/" then identifier0.drop 1 else identifier0)
        m = some (w, t)) :
    handle_ark identifier0 m =
      ArkOutcome.redirect
        (removesuffix t.url "${content}" ++
          (if startswith identifier0 "/" then identifier0.drop 1 else identifier0))
        t.http_code := by
  show (match match_prefix
      (if startswith identifier0 "/" then identifier0.drop 1 else identifier0) m with
    | none => ArkOutcome.typeErrorOnNoneUnpack
    | some (_what, target) =>
      ArkOutcome.redirect
        (removesuffix target.url "${content}" ++
          (if startswith identifier0 "/" then identifier0.drop 1 else identifier0))
        target.http_code) = _
  rw [h]

/-- C7 witness: the spec's example — target
{url: "https://example.org/${content}", http_code: 302} and identifier
"12025/x1" resolve to "https://example.org/12025/x1" with code 302. -/
theorem c7_redirect_construction_witness :
    handle_ark "12025/x1" [("12025", exampleTarget)] =
      ArkOutcome.redirect "https://example.org/12025/x1" 302 :=
  (c7_redirect_construction "12025/x1" [("12025", exampleTarget)] "12025"
    exampleTarget (by decide)).trans (by decide)

/-- C8 counterexample: the claim quantifies over ANY two calls in
succession, the second within maxAge of the first.  If the FIRST call was
served from a cache file that expires between the calls, the second call
does fetch: with a file written at time 0 and maxAge 10, a first call at
t = 9 (no fetch) and a second at t = 11 — only 2 seconds later, within
maxAge — downloads again and changes the published map. -/
theorem c8_refetch_counterexample :
    (11 : Nat) - 9 < 10 ∧
      c8FirstCall.fetchAttempted = false ∧
      c8SecondCall.fetchAttempted = true ∧
      c8SecondCall.state.ark_root_resolver_map
        ≠ c8FirstCall.state.ark_root_resolver_map := by
  decide

/-- C8 amended: when the FIRST call itself performed the download (saving a
fresh cache file at `t1`), any second call with `force_download = false`
within `interval` of `t1` performs no network fetch and leaves the whole
published state identical by value. -/
theorem c8_no_refetch_after_download (st : ServerState) (t1 t2 interval : Nat)
    (data : RegistryData) (fr2 : Option RegistryData)
    (hfirst : (ensure_up_to_date_naan_registry_cache st t1 interval false
        (some data)).fetchAttempted = true)
    (hfresh : t2 - t1 < interval) :
    (ensure_up_to_date_naan_registry_cache
        (ensure_up_to_date_naan_registry_cache st t1 interval false
          (some data)).state t2 interval false fr2).fetchAttempted = false ∧
      (ensure_up_to_date_naan_registry_cache
          (ensure_up_to_date_naan_registry_cache st t1 interval false
            (some data)).state t2 interval false fr2).state
        = (ensure_up_to_date_naan_registry_cache st t1 interval false
            (some data)).state := by
  rw [ensure_download_state st t1 interval data hfirst]
  have hvalid : is_cache_valid t2 { mtime := t1, data := data } interval = true := by
    simp [is_cache_valid, hfresh]
  constructor
  · simp [ensure_up_to_date_naan_registry_cache,
      get_latest_naan_registry_cache_file, save_data_to_cache, hvalid]
  · simp [ensure_up_to_date_naan_registry_cache,
      get_latest_naan_registry_cache_file, hvalid, load_from_cache,
      save_data_to_cache, update_ark_root_resolver_map_idem]

/-- C8 amended, witness: after a cold-start download at t = 0 with
maxAge 10, a second call at t = 3 does not fetch. -/
theorem c8_no_refetch_witness :
    (ensure_up_to_date_naan_registry_cache
        (ensure_up_to_date_naan_registry_cache emptyState 0 10 false
          (some [recordA])).state 3 10 false none).fetchAttempted = false :=
  (c8_no_refetch_after_download emptyState 0 3 10 [recordA] none (by decide)
    (by decide)).1

/-- C9: when a snapshot carries two or more records with the same `what`,
the built resolver map binds that key to the target of the LAST such record
in snapshot order (the stable descending-length sort keeps the relative
order of the equal-length duplicates, and the dict comprehension lets the
last assignment win). -/
theorem c9_duplicate_what_last_wins (data : RegistryData) (m : ResolverMap)
    (w : String)
    (hdup : 2 ≤ (data.filter (fun r => r.what == w)).length) :
    dictLookup (update_ark_root_resolver_map data m) w =
      (data.reverse.find? (fun r => r.what == w)).map NaanRecord.target := by
  rw [dictLookup_update_ark_root_resolver_map, ← lastRecordFor_eq_find_reverse]
  have hsome : (lastRecordFor w data).isSome = true := by
    rw [← lastRecordFor_filter]
    cases hf : data.filter (fun r => r.what == w) with
    | nil => rw [hf] at hdup; simp at hdup
    | cons r rest =>
      have hr : (r.what == w) = true := by
        have hrm : r ∈ data.filter (fun r => r.what == w) := by
          rw [hf]; exact List.mem_cons_self r rest
        exact (List.mem_filter.mp hrm).2
      rw [lastRecordFor_cons]
      cases lastRecordFor w rest with
      | some s => rfl
      | none => simp [hr]
  cases hl : lastRecordFor w data with
  | none => rw [hl] at hsome; simp at hsome
  | some r => rfl

/-- C9 witness: in the snapshot [{"11111" ↦ A}, {"22222" ↦ B},
{"11111" ↦ C}] the key "11111" maps to C, the last duplicate's target. -/
theorem c9_duplicate_what_witness :
    dictLookup (update_ark_root_resolver_map [recordA, recordB, recordA2] [])
        "11111" = some targetC :=
  (c9_duplicate_what_last_wins [recordA, recordB, recordA2] [] "11111"
    (by decide)).trans (by decide)

/-- C10: if the resolver map contains the empty string as a key, then
`match_prefix` succeeds on EVERY identifier ("" is a prefix of every
string), so no request can reach the no-match outcome. -/
theorem c10_empty_key_matches_everything (M : ResolverMap) (I : String)
    (v : Target) (h : ("", v) ∈ M) :
    Option.isSome ( match_prefix I M) = true := by
  have hmem : ("", v) ∈ M.filter (fun kv => startswith I kv.1) :=
    List.mem_filter.mpr ⟨h, startswith_empty_right I⟩
  show Option.isSome (maxByLenFirst (M.filter (fun kv => startswith I kv.1))) = true
  cases hf : M.filter (fun kv => startswith I kv.1) with
  | nil => rw [hf] at hmem; cases hmem
  | cons x xs => rfl

/-- C10 witness: with {"" ↦ A} published, even "00000/x" matches. -/
theorem c10_empty_key_witness :
    Option.isSome ( match_prefix "00000/x" emptyKeyMap) = true :=
  c10_empty_key_matches_everything emptyKeyMap "00000/x" targetA (by decide)

end ArkRoot
